import Mathlib

/-!
# Verification of the cache layer of the Express API gateway

This file embeds the cache subsystem of the repository (cache manager,
route-cache middleware, model cache decorator, token-auth middleware) as
executable Lean definitions and proves or refutes the specification's
claims about it.

The key-value store adapter and the cache manager (`common/redis/cache`)
are not part of the repository sources; they are modelled from the
specification, as indicated by the doc comments.  All other definitions
are translated from the JavaScript sources:
* `src/middleware/cache/index.js` (route cache middleware),
* the model cache decorator module (`cacheableModel`,
  `autoCacheClearModel`, `containsComplexOperators`, `hashString`),
* the user-authentication middleware (`validateUser`).
-/

set_option autoImplicit false

namespace ExpressCache

/-- A composite cache key.  The spec flattens keys as
`prefixName:identifier` where the identifier may itself contain colons;
since the namespace constants are a closed, colon-free enum the flattened
form is in bijection with the pair, so we model keys as pairs
(namespace, identifier). -/
abbrev Key := String × String

/-- One stored cache entry: a value together with its absolute expiry
time.  The spec requires every entry to be written with an expiry. -/
structure Entry (V : Type) where
  val : V
  expiresAt : Nat
deriving DecidableEq, Repr

/-- Modelled from the spec: the external key-value store
(get / set-with-expiry / delete / scan-by-pattern), kept as an
association list from composite keys to entries; the first binding for a
key is the current one. -/
structure Store (V : Type) where
  entries : List (Key × Entry V)
deriving DecidableEq, Repr

/-- The empty store. -/
def Store.empty (V : Type) : Store V := ⟨[]⟩

/-- Raw lookup of the current binding for a key, ignoring expiry. -/
def Store.findEntry {V : Type} (s : Store V) (k : Key) : Option (Entry V) :=
  (s.entries.find? (fun e => e.1 = k)).map (fun e => e.2)

/-- All keys currently bound in the store. -/
def Store.keys {V : Type} (s : Store V) : List Key :=
  s.entries.map (fun e => e.1)

/-- Glob matching with the single wildcard `*` (the only wildcard the
spec's scan patterns use), over character lists: a `*` consumes an
arbitrary portion of the subject, so the rest of the pattern must match
some suffix. -/
def globMatch : List Char → List Char → Bool
  | [], s => s.isEmpty
  | '*' :: ps, s => s.tails.any (fun t => globMatch ps t)
  | _ :: _, [] => false
  | p :: ps, c :: cs => p = c && globMatch ps cs

/-- Modelled from the spec: `clearByPattern` performs a "substring or
glob-style match against the identifier portion"; the pattern is used as
a glob surrounded by wildcards (so a plain pattern is a substring match
and the `"*"` pattern of `clearByType` matches every identifier). -/
def matchesPat (pat ident : String) : Bool :=
  globMatch (('*' :: pat.toList) ++ ['*']) ident.toList

/-- TTL tiers.  Modelled from the spec: the TTL/prefix policy module is
not among the sources; SHORT is minutes-scale. -/
def TTL_SHORT : Nat := 300

/-- Modelled from the spec: MEDIUM is hour-scale. -/
def TTL_MEDIUM : Nat := 3600

/-- Modelled from the spec: LONG is day-scale. -/
def TTL_LONG : Nat := 86400

/-- Modelled from the spec: the `USER` member of the closed prefix enum. -/
def PREFIX_USER : String := "user"

/-- Modelled from the spec: the `TOKEN` member of the closed prefix enum. -/
def PREFIX_TOKEN : String := "token"

/-- Modelled from the spec: the `CONFIG` member of the closed prefix enum. -/
def PREFIX_CONFIG : String := "config"

namespace CacheManager

variable {V : Type} {E : Type}

/-- Modelled from the spec: `get(prefix, identifier)` constructs the
composite key, queries the store and returns the value when the entry
has not yet expired (`common/redis/cache` is absent from the sources). -/
def get (s : Store V) (now : Nat) (ns ident : String) : Option V :=
  match s.findEntry (ns, ident) with
  | some e => if now < e.expiresAt then some e.val else none
  | none => none

/-- Modelled from the spec: `set(prefix, identifier, value, ttlSeconds)`
serializes and writes with expiry, overwriting any previous binding
wholesale. -/
def set (s : Store V) (now : Nat) (ns ident : String) (v : V) (ttl : Nat) : Store V :=
  ⟨((ns, ident), ⟨v, now + ttl⟩) :: s.entries.filter (fun e => ¬ e.1 = (ns, ident))⟩

/-- Modelled from the spec: `delete(prefix, identifier)` removes a single
entry and is idempotent. -/
def delete (s : Store V) (ns ident : String) : Store V :=
  ⟨s.entries.filter (fun e => ¬ e.1 = (ns, ident))⟩

/-- Whether `clearByPattern ns pat` removes the key `k`. -/
def clears (ns pat : String) (k : Key) : Bool :=
  k.1 = ns && matchesPat pat k.2

/-- Modelled from the spec: `clearByPattern(prefix, pattern)` scans all
keys under the prefix whose identifier matches the pattern, deletes
them, and returns the list of keys actually cleared. -/
def clearByPattern (s : Store V) (ns pat : String) : Store V × List Key :=
  (⟨s.entries.filter (fun e => ¬ clears ns pat e.1)⟩,
   (s.entries.filter (fun e => clears ns pat e.1)).map (fun e => e.1))

/-- Modelled from the spec: `clearByType(prefix)` is
`clearByPattern(prefix, "*")`, a full prefix sweep. -/
def clearByType (s : Store V) (ns : String) : Store V × List Key :=
  clearByPattern s ns "*"

/-- Result of a `getOrFetch` call: the value or the propagated fetch
error, the store after the call, and how many times the fetch function
was invoked. -/
structure FetchOut (E V : Type) where
  result : Except E V
  store : Store V
  fetchCalls : Nat
deriving Repr

/-- Modelled from the spec: `getOrFetch(prefix, identifier, fetchFn,
ttlSeconds)` checks the cache, returns immediately on a hit, and on a
miss invokes the fetch function; a fetched value is stored under the
computed key with the given TTL, while a fetch error propagates
unchanged and nothing is cached.  The fetch function is modelled by its
outcome, an `Except`. -/
def getOrFetch (s : Store V) (now : Nat) (ns ident : String)
    (fetchFn : Except E V) (ttl : Nat) : FetchOut E V :=
  match get s now ns ident with
  | some v => ⟨Except.ok v, s, 0⟩
  | none =>
    match fetchFn with
    | Except.error e => ⟨Except.error e, s, 1⟩
    | Except.ok v => ⟨Except.ok v, set s now ns ident v ttl, 1⟩

end CacheManager

/-- A record value used to replay the spec's end-to-end scenario
(`set(USER, "42", {name:"a"}, 60)` …). -/
structure JUser where
  name : String
deriving DecidableEq, Repr

/-- A small concrete store used by witnesses: two user records cached
under their primary keys and one config entry. -/
def demoStore : Store String :=
  ⟨[((PREFIX_USER, "User:pk:1"), ⟨"rec1", 100⟩),
    ((PREFIX_USER, "User:pk:2"), ⟨"rec2", 100⟩),
    ((PREFIX_CONFIG, "site"), ⟨"cfg", 100⟩)]⟩

/-- The key-value store together with its connectivity state: store
round-trips fail exactly when the connection is down.  The flag models
the spec's "store connectivity failure" taxonomy. -/
structure FStore (V : Type) where
  base : Store V
  connected : Bool
deriving DecidableEq, Repr

namespace CacheManager

variable {V : Type}

/-- Modelled from the spec: a store-level failure on the read path is
caught inside the manager, logged, and treated as a cache miss.  The
second component reports whether a failure was logged. -/
def getSafe (fs : FStore V) (now : Nat) (ns ident : String) : Option V × Bool :=
  if fs.connected then (get fs.base now ns ident, false) else (none, true)

/-- Modelled from the spec: a failed cache write is logged and never
propagated as a request failure. -/
def setSafe (fs : FStore V) (now : Nat) (ns ident : String) (v : V) (ttl : Nat) :
    FStore V × Bool :=
  if fs.connected then ({ fs with base := set fs.base now ns ident v ttl }, false)
  else (fs, true)

/-- Modelled from the spec: a store-level failure on the delete path is
caught, logged, and converted to a no-op. -/
def deleteSafe (fs : FStore V) (ns ident : String) : FStore V × Bool :=
  if fs.connected then ({ fs with base := delete fs.base ns ident }, false)
  else (fs, true)

/-- Modelled from the spec: a store-level failure on the scan path is
caught, logged, and converted to an empty result. -/
def clearByPatternSafe (fs : FStore V) (ns pat : String) :
    FStore V × List Key × Bool :=
  if fs.connected then
    ({ fs with base := (clearByPattern fs.base ns pat).1 },
     (clearByPattern fs.base ns pat).2, false)
  else (fs, [], true)

end CacheManager

/-- The single-record after-write hook registered by
`autoCacheClearModel` (afterCreate / afterUpdate / afterDestroy):
when the hook receives an instance with a truthy `id` it clears by the
pattern `modelName:pk:id`, otherwise it clears by the model name.
`instId` models `instance && instance.id` (`none` = no instance, `some 0`
= falsy id).  Hook errors are caught and logged (third component). -/
def autoClearSingleHook {V : Type} (fs : FStore V) (ns modelName : String)
    (instId : Option Nat) : FStore V × List Key × Bool :=
  match instId with
  | some id =>
    if id ≠ 0 then
      CacheManager.clearByPatternSafe fs ns (modelName ++ ":pk:" ++ toString id)
    else
      CacheManager.clearByPatternSafe fs ns modelName
  | none => CacheManager.clearByPatternSafe fs ns modelName

/-- The bulk after-write hook registered by `autoCacheClearModel`
(afterBulkCreate / afterBulkUpdate / afterBulkDestroy): clears the whole
model namespace by the model-name pattern. -/
def autoClearBulkHook {V : Type} (fs : FStore V) (ns modelName : String) :
    FStore V × List Key × Bool :=
  CacheManager.clearByPatternSafe fs ns modelName

/-- The argument of the decorator's `clearCache(idOrPattern)`: absent,
a string/number id, or a raw pattern. -/
inductive ClearArg where
  | all : ClearArg
  | byId (id : String) : ClearArg
  | raw (pat : String) : ClearArg
deriving DecidableEq, Repr

/-- `enhancedModel.clearCache` from the model cache decorator: no
argument clears the whole model, an id clears `modelName:pk:id`, any
other value is used as a raw pattern; store errors yield `[]` and are
logged. -/
def enhancedClearCache {V : Type} (fs : FStore V) (ns modelName : String)
    (a : ClearArg) : FStore V × List Key × Bool :=
  match a with
  | ClearArg.all => CacheManager.clearByPatternSafe fs ns modelName
  | ClearArg.byId id =>
    CacheManager.clearByPatternSafe fs ns (modelName ++ ":pk:" ++ id)
  | ClearArg.raw pat => CacheManager.clearByPatternSafe fs ns pat

/-- A concrete store holding two user records whose primary keys share a
decimal prefix (`1` and `12`). -/
def demoStore12 : Store String :=
  ⟨[((PREFIX_USER, "User:pk:1"), ⟨"rec1", 100⟩),
    ((PREFIX_USER, "User:pk:12"), ⟨"rec12", 100⟩)]⟩

/-- The authenticated principal attached to a request (`req.user`).  Ids
are modelled as strings; a falsy id (`0`, empty) is the empty string. -/
structure Principal where
  id : String
deriving DecidableEq, Repr

/-- An HTTP request, as far as the cache middleware inspects it.
`originalUrl` empty models a missing/falsy `req.originalUrl`; `body` is
the string-keyed request body object; `nocacheQuery` records whether the
query string carries the `nocache=true` flag (route handlers read it;
the middleware never does). -/
structure Req where
  method : String
  originalUrl : String
  url : String
  user : Option Principal
  body : List (String × String)
  nocacheQuery : Bool
deriving DecidableEq, Repr

/-- `req.originalUrl || req.url` from `generateCacheKey`. -/
def Req.effectiveUrl (r : Req) : String :=
  if r.originalUrl = "" then r.url else r.originalUrl

/-- `generateCacheKey(req, prefix)` from `src/middleware/cache/index.js`:
method and URL, wrapped with `user:<id>:` when an authenticated user is
present, suffixed with a body hash for non-GET requests with a non-empty
body, and prefixed with the cache prefix when one is given.  `bodyHash`
stands for `md5(JSON.stringify(req.body))`. -/
def generateCacheKey (bodyHash : List (String × String) → String) (req : Req)
    (ns : String) : String :=
  let key0 := req.method ++ ":" ++ req.effectiveUrl
  let key1 :=
    match req.user with
    | some u => if u.id = "" then key0 else "user:" ++ u.id ++ ":" ++ key0
    | none => key0
  let key2 :=
    if req.method ≠ "GET" ∧ req.body ≠ [] then key1 ++ ":" ++ bodyHash req.body
    else key1
  if ns = "" then key2 else ns ++ ":" ++ key2

/-- ASCII lowercasing of a character (header names are ASCII). -/
def charLower (c : Char) : Char :=
  if 'A' ≤ c ∧ c ≤ 'Z' then Char.ofNat (c.toNat + 32) else c

/-- ASCII lowercasing of a string, modelling `toLowerCase()` on header
names. -/
def strLower (s : String) : String := ⟨s.data.map charLower⟩

/-- Response headers: an association list with lowercased names (Node
lowercases outgoing header names), latest setting first. -/
abbrev Headers := List (String × String)

/-- `res.set(name, value)`: overwrites case-insensitively. -/
def hset (hs : Headers) (nm v : String) : Headers :=
  (strLower nm, v) :: hs.filter (fun p => ¬ p.1 = strLower nm)

/-- `res.get(name)`. -/
def hget (hs : Headers) (nm : String) : Option String :=
  (hs.find? (fun p => p.1 = strLower nm)).map (fun p => p.2)

/-- Apply a list of header settings in order. -/
def hsetMany (hs : Headers) (upds : Headers) : Headers :=
  upds.foldl (fun a p => hset a p.1 p.2) hs

/-- A cached route response: the `{status, headers, body}` triple the
middleware stores on a miss. -/
structure CachedResponse where
  status : Nat
  headers : Headers
  body : String
deriving DecidableEq, Repr

/-- What the downstream handler does when invoked: the status code it
sets, the headers it sets, and the body it sends. -/
structure HResp where
  status : Nat
  headers : Headers
  body : String
deriving DecidableEq, Repr

/-- The observable outcome of running the route-cache middleware on one
request: the response sent, whether `next()` (the downstream handler)
ran, the resulting store, and how many cache failures were logged. -/
structure MWOut where
  status : Nat
  headers : Headers
  body : String
  nextCalled : Bool
  store : FStore CachedResponse
  cacheLogs : Nat
deriving DecidableEq, Repr

/-- `routeCache(options)` from `src/middleware/cache/index.js`, applied
to one request, with the default `shouldCache` (`statusCode < 400`) and
the default key generator.  Non-GET requests fall through (default
`cacheNonGetRequests`).  On a hit the stored status, headers (minus
content-length/content-encoding) and body are replayed after an
`X-Cache: HIT` marker and the handler is not invoked.  On a miss an
`X-Cache: MISS` marker is set, the handler runs, and the captured
`{status, headers, body}` is written back when the status is below 400;
a failed write is logged, never propagated. -/
def routeCache (bodyHash : List (String × String) → String) (ns : String)
    (ttl : Nat) (now : Nat) (handler : Req → HResp) (req : Req)
    (fs : FStore CachedResponse) : MWOut :=
  if req.method ≠ "GET" then
    let h := handler req
    ⟨h.status, hsetMany [] h.headers, h.body, true, fs, 0⟩
  else
    let cacheKey := generateCacheKey bodyHash req ns
    match CacheManager.getSafe fs now ns cacheKey with
    | (some c, _) =>
      let hs0 := hset [] "X-Cache" "HIT"
      let hs1 := c.headers.foldl
        (fun acc p =>
          if strLower p.1 = "content-length" ∨ strLower p.1 = "content-encoding"
          then acc
          else hset acc p.1 p.2) hs0
      ⟨c.status, hs1, c.body, false, fs, 0⟩
    | (none, lg) =>
      let hs0 := hset [] "X-Cache" "MISS"
      let h := handler req
      let hs1 := hsetMany hs0 h.headers
      if h.status < 400 then
        let w := CacheManager.setSafe fs now ns cacheKey ⟨h.status, hs1, h.body⟩ ttl
        ⟨h.status, hs1, h.body, true, w.1,
          (if lg then 1 else 0) + (if w.2 then 1 else 0)⟩
      else
        ⟨h.status, hs1, h.body, true, fs, if lg then 1 else 0⟩

/-- A concrete stand-in for the body-hash function, used by closed
witnesses and counterexamples (its concrete values are irrelevant to
the statements that use it). -/
def demoBodyHash : List (String × String) → String := fun _ => "bodyhash"

/-- A concrete downstream handler for the cache-demo route. -/
def demoHandler : Req → HResp :=
  fun _ => ⟨200, [("content-type", "application/json")], "demo-body"⟩

/-- A concrete GET request for the cache-demo route. -/
def demoReq : Req := ⟨"GET", "/cache-demo", "/cache-demo", none, [], false⟩

/-- The same request carrying the `nocache=true` bypass query flag. -/
def demoReqBypass : Req := { demoReq with nocacheQuery := true }

/-- The Sequelize query operators (`Op.*`): JavaScript Symbols, not
strings. -/
inductive OpSym where
  | opOr : OpSym
  | opAnd : OpSym
  | opNot : OpSym
  | opNotIn : OpSym
  | opLike : OpSym
  | opNotLike : OpSym
  | opRegexp : OpSym
  | opNotRegexp : OpSym
  | opBetween : OpSym
  | opNotBetween : OpSym
  | opEq : OpSym
  | opGt : OpSym
  | opIn : OpSym
deriving DecidableEq, Repr

/-- A JavaScript object key: an ordinary string key or a Symbol key.
`Object.keys` enumerates only the former. -/
inductive JsKey where
  | str (s : String) : JsKey
  | sym (op : OpSym) : JsKey
deriving DecidableEq, Repr

/-- A JavaScript value as it appears in a Sequelize `where` clause: a
primitive, or an object given as its ordered field list (`objNil` /
`objCons`); arrays are objects with numeric string keys. -/
inductive WhereVal where
  | prim (s : String) : WhereVal
  | objNil : WhereVal
  | objCons (k : JsKey) (v : WhereVal) (rest : WhereVal) : WhereVal
deriving DecidableEq, Repr

/-- The `complexOperators` array from the model cache decorator: the ten
Sequelize operator Symbols
(`Op.or, Op.and, Op.not, Op.notIn, Op.like, Op.notLike, Op.regexp,
Op.notRegexp, Op.between, Op.notBetween`). -/
def complexOperators : List JsKey :=
  [JsKey.sym OpSym.opOr, JsKey.sym OpSym.opAnd, JsKey.sym OpSym.opNot,
   JsKey.sym OpSym.opNotIn, JsKey.sym OpSym.opLike, JsKey.sym OpSym.opNotLike,
   JsKey.sym OpSym.opRegexp, JsKey.sym OpSym.opNotRegexp,
   JsKey.sym OpSym.opBetween, JsKey.sym OpSym.opNotBetween]

/-- `where[key] && typeof where[key] === 'object'`: the value is a
(non-null) object. -/
def WhereVal.isObj : WhereVal → Bool
  | WhereVal.prim _ => false
  | WhereVal.objNil => true
  | WhereVal.objCons _ _ _ => true

/-- `containsComplexOperators(where)` from the model cache decorator:
iterates `Object.keys(where)` — which enumerates only string keys, so
Symbol-keyed operator entries are skipped — and for each string key
tests `complexOperators.includes(key)` (a string compared against
Symbols) and recurses into object-typed values. -/
def containsComplexOperators : WhereVal → Bool
  | WhereVal.prim _ => false
  | WhereVal.objNil => false
  | WhereVal.objCons (JsKey.sym _) _ rest => containsComplexOperators rest
  | WhereVal.objCons (JsKey.str s) v rest =>
    complexOperators.contains (JsKey.str s) ||
      (if v.isObj then containsComplexOperators v else false) ||
      containsComplexOperators rest

/-- `(n | 0)` / `ToInt32`: wrap an integer to the signed 32-bit range. -/
def toInt32 (n : Int) : Int := (n + 2 ^ 31) % 2 ^ 32 - 2 ^ 31

/-- The loop of `hashString` from the model cache decorator:
`hash = ((hash << 5) - hash) + charCode; hash = hash & hash`, i.e. each
step wraps to 32-bit.  Characters are taken as code points (the strings
involved are ASCII, where `charCodeAt` agrees). -/
def hashStringAux : List Char → Int → Int
  | [], h => h
  | c :: cs, h => hashStringAux cs (toInt32 (toInt32 (h * 32) - h + c.toNat))

/-- `hashString(str)` from the model cache decorator: the 32-bit rolling
hash, rendered in decimal. -/
def hashString (s : String) : String :=
  if s.data.isEmpty then toString (0 : Int)
  else toString (hashStringAux s.data 0)

/-- The options object of a `findOne` call, as far as the wrapped method
inspects it: truthiness of `include` and `transaction`, the `where`
clause, and the per-call `disableCache` opt-out. -/
structure FindOneOpts where
  includeAssoc : Bool
  transaction : Bool
  whereC : Option WhereVal
  disableCache : Bool
deriving Repr

/-- Which implementation a wrapped model method dispatches to: the real
implementation (fall-through, no cache read or write), or the cache
(`getOrFetch` under the given cache key). -/
inductive CallPath where
  | fallThrough : CallPath
  | viaCache (cacheKey : String) : CallPath
deriving DecidableEq, Repr

/-- The dispatch of the `findOne` wrapper produced by `cacheableModel`:
fall through when caching is globally disabled, the call opts out, the
query has `include` or `transaction`, or `containsComplexOperators`
holds of the `where` clause; otherwise delegate to `getOrFetch` under
`modelName:one:<hash of JSON.stringify(where)>` (`stringify` stands for
`JSON.stringify`). -/
def cacheableFindOnePath (stringify : WhereVal → String)
    (disableCacheGlobal : Bool) (modelName : String) (q : FindOneOpts) :
    CallPath :=
  if disableCacheGlobal then CallPath.fallThrough
  else if q.disableCache then CallPath.fallThrough
  else if q.includeAssoc then CallPath.fallThrough
  else if q.transaction then CallPath.fallThrough
  else if (match q.whereC with
           | some w => containsComplexOperators w
           | none => false) then CallPath.fallThrough
  else
    CallPath.viaCache (modelName ++ ":one:" ++
      hashString (match q.whereC with
                  | some w => stringify w
                  | none => "all"))

/-- The dispatch of the `findByPk` wrapper produced by `cacheableModel`:
fall through when caching is globally disabled, the call opts out, or
the call runs inside a transaction; otherwise delegate to `getOrFetch`
under `modelName:pk:<id>`. -/
def cacheableFindByPkPath (disableCacheGlobal : Bool) (modelName id : String)
    (transaction disableCacheOpt : Bool) : CallPath :=
  if disableCacheGlobal then CallPath.fallThrough
  else if disableCacheOpt then CallPath.fallThrough
  else if transaction then CallPath.fallThrough
  else CallPath.viaCache (modelName ++ ":pk:" ++ id)

/-- The concrete `where` clause `{ [Op.or]: [{id:"1"}, {id:"2"}] }`. -/
def whereOpOr : WhereVal :=
  WhereVal.objCons (JsKey.sym OpSym.opOr)
    (WhereVal.objCons (JsKey.str "0")
      (WhereVal.objCons (JsKey.str "id") (WhereVal.prim "1") WhereVal.objNil)
      (WhereVal.objCons (JsKey.str "1")
        (WhereVal.objCons (JsKey.str "id") (WhereVal.prim "2") WhereVal.objNil)
        WhereVal.objNil))
    WhereVal.objNil

/-- The decoded JWT payload, as far as the auth middleware uses it. -/
structure TokenPayload where
  id : String
deriving DecidableEq, Repr

/-- A user record, as far as the auth middleware inspects it. -/
structure UserRec where
  id : String
  status : String
deriving DecidableEq, Repr

/-- The outcome `validateUser` produces for one request. -/
inductive AuthOutcome where
  | unauthorizedNoToken : AuthOutcome
  | unauthorizedBadToken : AuthOutcome
  | badRequestNoUser : AuthOutcome
  | unauthorizedStatus : AuthOutcome
  | success (user : UserRec) : AuthOutcome
deriving DecidableEq, Repr

/-- The state after a `validateUser` run: the outcome, both cache
namespaces, and how many times `jwt.verify` was invoked. -/
structure AuthOut where
  outcome : AuthOutcome
  tokenStore : Store TokenPayload
  userStore : Store (Option UserRec)
  verifyCalls : Nat
deriving DecidableEq, Repr

/-- `token.substring(0, 10)`. -/
def strTake (s : String) (n : Nat) : String := ⟨s.data.take n⟩

/-- The tail of `validateUser` once the token payload is determined:
fetch the user through the user cache (`getOrFetch` keyed by the decoded
id; `getUserById` returns null rather than throwing), reject a missing
or non-active user, otherwise attach the user and succeed. -/
def finishAuth (getUser : String → Option UserRec) (decoded : TokenPayload)
    (ts : Store TokenPayload) (us : Store (Option UserRec)) (now : Nat)
    (vc : Nat) : AuthOut :=
  let r := CacheManager.getOrFetch us now PREFIX_USER decoded.id
    ((Except.ok (getUser decoded.id) : Except Empty (Option UserRec))) TTL_MEDIUM
  match r.result with
  | Except.ok (some u) =>
    if u.status = "active" then ⟨AuthOutcome.success u, ts, r.store, vc⟩
    else ⟨AuthOutcome.unauthorizedStatus, ts, r.store, vc⟩
  | Except.ok none => ⟨AuthOutcome.badRequestNoUser, ts, r.store, vc⟩
  | Except.error e => e.elim

/-- `validateUser` from the auth middleware: extract the bearer token,
look up the token cache under `auth:` + the first 10 characters of the
token, verify the token only on a cache miss (caching the decoded
payload with the SHORT TTL), then resolve the user.  `verify` models
`jwt.verify` (`none` = invalid/expired) and `getUser` models the
`findByPk` lookup. -/
def validateUser (verify : String → Option TokenPayload)
    (getUser : String → Option UserRec)
    (ts : Store TokenPayload) (us : Store (Option UserRec)) (now : Nat)
    (tok : Option String) : AuthOut :=
  match tok with
  | none => ⟨AuthOutcome.unauthorizedNoToken, ts, us, 0⟩
  | some token =>
    let tokenKey := "auth:" ++ strTake token 10
    match CacheManager.get ts now PREFIX_TOKEN tokenKey with
    | some decoded => finishAuth getUser decoded ts us now 0
    | none =>
      match verify token with
      | none => ⟨AuthOutcome.unauthorizedBadToken, ts, us, 1⟩
      | some decoded =>
        finishAuth getUser decoded
          (CacheManager.set ts now PREFIX_TOKEN tokenKey decoded TTL_SHORT)
          us now 1

/-- A concrete JWT-shaped token (all compact JWTs begin with the same
header characters). -/
def demoToken1 : String := "eyJhbGciOiJIUzI1NiJ9.payloadA.sigA"

/-- A different token agreeing with `demoToken1` on its first 10
characters. -/
def demoToken2 : String := "eyJhbGciOiJIUzI1NiJ9.payloadB.sigB"

/-- A concrete verifier: accepts exactly `demoToken1`, decoding it to
user id 7; rejects everything else (including `demoToken2`). -/
def demoVerify : String → Option TokenPayload :=
  fun t => if t = demoToken1 then some ⟨"7"⟩ else none

/-- A concrete user lookup: user 7 exists and is active. -/
def demoGetUser : String → Option UserRec :=
  fun i => if i = "7" then some ⟨"7", "active"⟩ else none

/-- The four components the default key generator fingerprints: method,
effective URL, authenticated principal (when present with a truthy id),
and — for non-GET requests with a non-empty body — the body hash. -/
structure Fingerprint where
  method : String
  url : String
  principal : Option String
  bodyTag : Option String
deriving DecidableEq, Repr

/-- The fingerprint components of a request, as `generateCacheKey`
selects them. -/
def canon (bodyHash : List (String × String) → String) (r : Req) : Fingerprint :=
  ⟨r.method, r.effectiveUrl,
   (match r.user with
    | some u => if u.id = "" then none else some u.id
    | none => none),
   (if r.method ≠ "GET" ∧ r.body ≠ [] then some (bodyHash r.body) else none)⟩

/-- The `user:<id>:` portion the key generator puts in front of the key
for an authenticated request. -/
def principalPart : Option String → String
  | some i => "user:" ++ i ++ ":"
  | none => ""

/-- The `:<bodyHash>` suffix the key generator appends for non-GET
requests with a body. -/
def hashPart : Option String → String
  | some h => ":" ++ h
  | none => ""

/-- The flattened fingerprint string (the key before the cache prefix is
prepended). -/
def fpKey (f : Fingerprint) : String :=
  principalPart f.principal ++ (f.method ++ ":" ++ f.url) ++ hashPart f.bodyTag

/-- Whether a string is free of the `:` separator. -/
def noColon (s : String) : Bool := s.data.all (fun c => ¬ c = ':')

/-- Side conditions under which the flattened fingerprint is
unambiguous: the method, the principal id and the URL contain no colon,
and the method is not the literal `user`. -/
def reqWF (r : Req) : Prop :=
  noColon r.method = true ∧ r.method ≠ "user" ∧
  noColon r.effectiveUrl = true ∧
  (∀ u, r.user = some u → noColon u.id = true)

/-- A POST with an empty body whose URL ends in a colon followed by the
very string that hashing `reqColB`'s body produces. -/
def reqColA : Req := ⟨"POST", "/a:bodyhash", "/a:bodyhash", none, [], false⟩

/-- A POST to `/a` with a non-empty body (whose hash under
`demoBodyHash` is `bodyhash`). -/
def reqColB : Req := ⟨"POST", "/a", "/a", none, [("a", "1")], false⟩

section ManagerLemmas

variable {V : Type}

theorem get_set_same (s : Store V) (t t' : Nat) (ns ident : String) (v : V) (ttl : Nat) :
    CacheManager.get (CacheManager.set s t ns ident v ttl) t' ns ident =
      if t' < t + ttl then some v else none := by
  simp [CacheManager.get, CacheManager.set, Store.findEntry, List.find?]

theorem find?_filter_ne (k k' : Key) (h : k' ≠ k) (l : List (Key × Entry V)) :
    (l.filter (fun e => ¬ e.1 = k)).find? (fun e => e.1 = k') =
      l.find? (fun e => e.1 = k') := by
  induction l with
  | nil => rfl
  | cons e l ih =>
    by_cases he' : e.1 = k'
    · have hek : ¬ e.1 = k := fun hh => h (he' ▸ hh ▸ rfl)
      rw [List.filter_cons_of_pos (by simpa using hek),
        List.find?_cons_of_pos _ (by simpa using he'),
        List.find?_cons_of_pos _ (by simpa using he')]
    · by_cases hek : e.1 = k
      · rw [List.filter_cons_of_neg (by simpa using hek), ih,
          List.find?_cons_of_neg _ (by simpa using he')]
      · rw [List.filter_cons_of_pos (by simpa using hek),
          List.find?_cons_of_neg _ (by simpa using he'),
          List.find?_cons_of_neg _ (by simpa using he'), ih]

theorem get_set_other (s : Store V) (t t' : Nat) (ns ident ns' ident' : String) (v : V)
    (ttl : Nat) (h : (ns', ident') ≠ (ns, ident)) :
    CacheManager.get (CacheManager.set s t ns ident v ttl) t' ns' ident' =
      CacheManager.get s t' ns' ident' := by
  simp only [CacheManager.get, CacheManager.set, Store.findEntry]
  rw [List.find?_cons_of_neg _
      (by simp only [decide_eq_true_eq]; exact fun hh => h hh.symm),
    find?_filter_ne _ _ h]

theorem find?_filter_of_not (q : Key → Bool) (k : Key) (hq : q k = false)
    (l : List (Key × Entry V)) :
    (l.filter (fun e => ¬ q e.1 = true)).find? (fun e => e.1 = k) =
      l.find? (fun e => e.1 = k) := by
  induction l with
  | nil => rfl
  | cons e l ih =>
    by_cases he' : e.1 = k
    · have hek : q e.1 = false := he' ▸ hq
      rw [List.filter_cons_of_pos (by simp [hek]),
        List.find?_cons_of_pos _ (by simpa using he'),
        List.find?_cons_of_pos _ (by simpa using he')]
    · by_cases hek : q e.1 = true
      · rw [List.filter_cons_of_neg (by simp [hek]), ih,
          List.find?_cons_of_neg _ (by simpa using he')]
      · rw [List.filter_cons_of_pos (by simp [hek]),
          List.find?_cons_of_neg _ (by simpa using he'),
          List.find?_cons_of_neg _ (by simpa using he'), ih]

/-- Shared characterization of `clearByPattern`: the returned list is
exactly the set of stored keys under the prefix whose identifier matches
the pattern, those keys are deleted, and every other key (in particular
every key under another prefix) keeps its binding. -/
theorem clearByPattern_spec (s : Store V) (ns pat : String) :
    (∀ k, k ∈ (CacheManager.clearByPattern s ns pat).2 ↔
        k ∈ s.keys ∧ CacheManager.clears ns pat k = true) ∧
    (∀ k, CacheManager.clears ns pat k = true →
        (CacheManager.clearByPattern s ns pat).1.findEntry k = none) ∧
    (∀ k, CacheManager.clears ns pat k = false →
        (CacheManager.clearByPattern s ns pat).1.findEntry k = s.findEntry k) := by
  refine ⟨?_, ?_, ?_⟩
  · intro k
    simp only [CacheManager.clearByPattern, Store.keys, List.mem_map,
      List.mem_filter]
    constructor
    · rintro ⟨e, ⟨hmem, hcl⟩, rfl⟩
      exact ⟨⟨e, hmem, rfl⟩, hcl⟩
    · rintro ⟨⟨e, hmem, rfl⟩, hcl⟩
      exact ⟨e, ⟨hmem, hcl⟩, rfl⟩
  · intro k hcl
    simp only [CacheManager.clearByPattern, Store.findEntry]
    rw [List.find?_eq_none.mpr, Option.map_none']
    intro e he
    simp only [List.mem_filter, decide_eq_true_eq] at he
    simp only [decide_eq_true_eq]
    intro hek
    exact he.2 (by simpa [hek] using hcl)
  · intro k hcl
    simp only [CacheManager.clearByPattern, Store.findEntry]
    rw [find?_filter_of_not (CacheManager.clears ns pat) k hcl]

end ManagerLemmas

/-- C1: if the fetch function passed to `getOrFetch` throws, the error
propagates unchanged, nothing is written to the store, a subsequent
`get` of the same (prefix, identifier) still returns absent, and a
subsequent `getOrFetch` invokes its fetch function again. -/
theorem getOrFetch_fetch_error_not_cached {V E : Type} (s : Store V) (now : Nat)
    (ns ident : String) (e : E) (ttl : Nat)
    (hmiss : CacheManager.get s now ns ident = none) :
    (CacheManager.getOrFetch s now ns ident (Except.error e) ttl).result =
        Except.error e ∧
    (CacheManager.getOrFetch s now ns ident (Except.error e) ttl).store = s ∧
    (CacheManager.getOrFetch s now ns ident (Except.error e) ttl).fetchCalls = 1 ∧
    CacheManager.get
        (CacheManager.getOrFetch s now ns ident (Except.error e) ttl).store
        now ns ident = none ∧
    (∀ (f' : Except E V) (ttl' : Nat),
      (CacheManager.getOrFetch
          (CacheManager.getOrFetch s now ns ident (Except.error e) ttl).store
          now ns ident f' ttl').fetchCalls = 1) := by
  refine ⟨?_, ?_, ?_, ?_, ?_⟩ <;>
    simp only [CacheManager.getOrFetch, hmiss]
  intro f' ttl'
  cases f' <;> rfl

/-- C1 witness: the spec's end-to-end scenario — `getOrFetch(CONFIG,
"register-config", fetchThatThrows, 3600)` on a cold store throws, and
`get(CONFIG, "register-config")` afterwards still returns absent. -/
theorem getOrFetch_fetch_error_not_cached_witness :
    (CacheManager.getOrFetch (Store.empty String) 0 PREFIX_CONFIG "register-config"
        (Except.error "db down") 3600).result = Except.error "db down" ∧
    CacheManager.get
        (CacheManager.getOrFetch (Store.empty String) 0 PREFIX_CONFIG "register-config"
          (Except.error "db down") 3600).store
        0 PREFIX_CONFIG "register-config" = none :=
  have h := getOrFetch_fetch_error_not_cached (Store.empty String) 0 PREFIX_CONFIG
    "register-config" "db down" 3600 rfl
  ⟨h.1, h.2.2.2.1⟩

/-- C2: `get` after `set` returns the stored value before the TTL
elapses and absent afterwards, and a second `set` of the same key
replaces the entry wholesale, so the next `get` returns only the newest
value. -/
theorem set_get_ttl_overwrite {V : Type} (s : Store V) (t t' : Nat) (ns k : String)
    (v v' : V) (ttl : Nat) :
    (t' < t + ttl →
      CacheManager.get (CacheManager.set s t ns k v ttl) t' ns k = some v) ∧
    (t + ttl ≤ t' →
      CacheManager.get (CacheManager.set s t ns k v ttl) t' ns k = none) ∧
    (t' < t + ttl →
      CacheManager.get
        (CacheManager.set (CacheManager.set s t ns k v ttl) t ns k v' ttl)
        t' ns k = some v') := by
  refine ⟨fun h => ?_, fun h => ?_, fun h => ?_⟩ <;> rw [get_set_same]
  · exact if_pos h
  · exact if_neg (Nat.not_lt.mpr h)
  · exact if_pos h

/-- C2 witness: the spec's end-to-end scenario — `set(USER, "42",
{name:"a"}, 60)` then `get` returns `{name:"a"}`, and after overwriting
with `{name:"b"}` the next `get` returns `{name:"b"}`. -/
theorem set_get_ttl_overwrite_witness :
    CacheManager.get
        (CacheManager.set (Store.empty JUser) 0 PREFIX_USER "42" ⟨"a"⟩ 60)
        30 PREFIX_USER "42" = some ⟨"a"⟩ ∧
    CacheManager.get
        (CacheManager.set
          (CacheManager.set (Store.empty JUser) 0 PREFIX_USER "42" ⟨"a"⟩ 60)
          0 PREFIX_USER "42" ⟨"b"⟩ 60)
        30 PREFIX_USER "42" = some ⟨"b"⟩ :=
  ⟨(set_get_ttl_overwrite (Store.empty JUser) 0 30 PREFIX_USER "42" ⟨"a"⟩ ⟨"b"⟩ 60).1
      (by decide),
   (set_get_ttl_overwrite (Store.empty JUser) 0 30 PREFIX_USER "42" ⟨"a"⟩ ⟨"b"⟩ 60).2.2
      (by decide)⟩

/-- C8: `clearByPattern(prefix, pattern)` deletes exactly the stored
keys under the prefix whose identifier matches the pattern, returns
exactly that set of keys, and leaves every key whose prefix or
identifier does not match — in particular every key under any other
prefix — unchanged. -/
theorem clearByPattern_exact {V : Type} (s : Store V) (ns pat : String) :
    (∀ k, k ∈ (CacheManager.clearByPattern s ns pat).2 ↔
        k ∈ s.keys ∧ CacheManager.clears ns pat k = true) ∧
    (∀ k, CacheManager.clears ns pat k = true →
        (CacheManager.clearByPattern s ns pat).1.findEntry k = none) ∧
    (∀ k, CacheManager.clears ns pat k = false →
        (CacheManager.clearByPattern s ns pat).1.findEntry k = s.findEntry k) :=
  clearByPattern_spec s ns pat

/-- C8 witness: on a concrete store holding `User:pk:1` and `User:pk:2`
under the user prefix and one entry under the config prefix, clearing
pattern `User:pk:1` returns exactly that key, deletes it, and leaves the
sibling and the config entry untouched. -/
theorem clearByPattern_exact_witness :
    ((PREFIX_USER, "User:pk:1") ∈
      (CacheManager.clearByPattern demoStore PREFIX_USER "User:pk:1").2 ∧
     (CacheManager.clearByPattern demoStore PREFIX_USER "User:pk:1").1.findEntry
        (PREFIX_USER, "User:pk:1") = none) ∧
    (CacheManager.clearByPattern demoStore PREFIX_USER "User:pk:1").1.findEntry
        (PREFIX_USER, "User:pk:2") = demoStore.findEntry (PREFIX_USER, "User:pk:2") ∧
    (CacheManager.clearByPattern demoStore PREFIX_USER "User:pk:1").1.findEntry
        (PREFIX_CONFIG, "site") = demoStore.findEntry (PREFIX_CONFIG, "site") :=
  have h := clearByPattern_exact demoStore PREFIX_USER "User:pk:1"
  ⟨⟨(h.1 (PREFIX_USER, "User:pk:1")).mpr (by decide),
    h.2.1 (PREFIX_USER, "User:pk:1") (by decide)⟩,
   h.2.2 (PREFIX_USER, "User:pk:2") (by decide),
   h.2.2 (PREFIX_CONFIG, "site") (by decide)⟩

/-- C3 counterexample: with records `1` and `12` cached, the after-update
hook for the record with primary key `1` clears the pattern `User:pk:1`,
which also matches the sibling key `User:pk:12`; the sibling's cached
entry is gone afterwards, contradicting the claim that records whose
primary key merely has the updated id as a prefix remain cached. -/
theorem autoClear_update_clears_pk_head_sibling :
    CacheManager.get demoStore12 0 PREFIX_USER "User:pk:12" = some "rec12" ∧
    CacheManager.get
        (autoClearSingleHook ⟨demoStore12, true⟩ PREFIX_USER "User" (some 1)).1.base
        0 PREFIX_USER "User:pk:12" = none := by
  decide

/-- C3 amended: on a connected store, the single-record after-update
hook with a truthy id clears exactly the keys under the model's prefix
whose identifier contains `modelName:pk:id` as a substring — so every
sibling whose key does not contain that pattern keeps its cached entry,
but siblings whose primary key extends the id decimally are invalidated
too. -/
theorem autoClear_update_clears_exactly_matching {V : Type} (fs : FStore V)
    (ns modelName : String) (id : Nat)
    (hconn : fs.connected = true) (hid : id ≠ 0) :
    (∀ k, k ∈ (autoClearSingleHook fs ns modelName (some id)).2.1 ↔
        k ∈ fs.base.keys ∧
          CacheManager.clears ns (modelName ++ ":pk:" ++ toString id) k = true) ∧
    (∀ k, CacheManager.clears ns (modelName ++ ":pk:" ++ toString id) k = true →
        (autoClearSingleHook fs ns modelName (some id)).1.base.findEntry k = none) ∧
    (∀ k, CacheManager.clears ns (modelName ++ ":pk:" ++ toString id) k = false →
        (autoClearSingleHook fs ns modelName (some id)).1.base.findEntry k =
          fs.base.findEntry k) := by
  have h := clearByPattern_spec fs.base ns (modelName ++ ":pk:" ++ toString id)
  simp only [autoClearSingleHook, if_pos hid, CacheManager.clearByPatternSafe,
    hconn, if_true]
  exact h

/-- C3 amended witness: updating record `2` in the concrete store leaves
record `1`'s cached entry intact and clears exactly `User:pk:2`. -/
theorem autoClear_update_clears_exactly_matching_witness :
    ((PREFIX_USER, "User:pk:2") ∈
        (autoClearSingleHook ⟨demoStore, true⟩ PREFIX_USER "User" (some 2)).2.1 ∧
      (autoClearSingleHook ⟨demoStore, true⟩ PREFIX_USER "User"
          (some 2)).1.base.findEntry (PREFIX_USER, "User:pk:2") = none) ∧
    (autoClearSingleHook ⟨demoStore, true⟩ PREFIX_USER "User"
        (some 2)).1.base.findEntry (PREFIX_USER, "User:pk:1") =
      demoStore.findEntry (PREFIX_USER, "User:pk:1") :=
  have h := autoClear_update_clears_exactly_matching
    (⟨demoStore, true⟩ : FStore String) PREFIX_USER "User" 2 rfl (by decide)
  ⟨⟨(h.1 (PREFIX_USER, "User:pk:2")).mpr (by decide),
    h.2.1 (PREFIX_USER, "User:pk:2") (by decide)⟩,
   h.2.2 (PREFIX_USER, "User:pk:1") (by decide)⟩

/-- C5 counterexample: a GET request carrying the `nocache=true` bypass
flag, arriving when the store already holds an entry for its
fingerprint, is served from the cache — the handler is not invoked, the
store was read, and the diagnostic marker is not `BYPASS`.  The
middleware never inspects the flag, contradicting the claim that it
forces a bypass with no cache read. -/
theorem routeCache_serves_cache_despite_bypass_flag :
    (routeCache demoBodyHash "api:demo" 60 10 demoHandler demoReqBypass
        (routeCache demoBodyHash "api:demo" 60 0 demoHandler demoReq
          ⟨Store.empty CachedResponse, true⟩).store).nextCalled = false ∧
    hget (routeCache demoBodyHash "api:demo" 60 10 demoHandler demoReqBypass
        (routeCache demoBodyHash "api:demo" 60 0 demoHandler demoReq
          ⟨Store.empty CachedResponse, true⟩).store).headers "X-Cache" ≠
      some "BYPASS" := by
  decide

/-- C5 amended: the route-cache middleware itself implements no
request-level bypass — its whole observable behaviour (response, store
effects, handler invocation) is independent of the `nocache` query flag
whenever the downstream handler's output is; bypass markers seen in
responses are set by individual route handlers, not by the middleware. -/
theorem routeCache_independent_of_bypass_flag
    (bodyHash : List (String × String) → String) (ns : String) (ttl now : Nat)
    (handler : Req → HResp) (req : Req) (fs : FStore CachedResponse) (b b' : Bool)
    (hh : handler { req with nocacheQuery := b } =
      handler { req with nocacheQuery := b' }) :
    routeCache bodyHash ns ttl now handler { req with nocacheQuery := b } fs =
      routeCache bodyHash ns ttl now handler { req with nocacheQuery := b' } fs := by
  unfold routeCache
  rw [hh]
  rfl

/-- C5 amended witness: for the concrete cache-demo request and handler,
the middleware treats the flagged and unflagged requests identically. -/
theorem routeCache_independent_of_bypass_flag_witness :
    routeCache demoBodyHash "api:demo" 60 0 demoHandler demoReqBypass
        ⟨Store.empty CachedResponse, true⟩ =
      routeCache demoBodyHash "api:demo" 60 0 demoHandler demoReq
        ⟨Store.empty CachedResponse, true⟩ :=
  routeCache_independent_of_bypass_flag demoBodyHash "api:demo" 60 0 demoHandler
    demoReq ⟨Store.empty CachedResponse, true⟩ true false rfl

/-- C6: on a route-cache hit the middleware does not invoke the handler,
replays the stored status and body, and replays the stored headers minus
content-length/content-encoding — but because every entry captured by
the miss path stores the `x-cache: MISS` marker among its headers, the
replay overwrites the freshly set `X-Cache: HIT`, so the response of a
genuine hit carries `X-Cache: MISS`, not `HIT`. -/
theorem routeCache_hit_replays_stored_miss_marker :
    (routeCache demoBodyHash "api:demo" 60 10 demoHandler demoReq
        (routeCache demoBodyHash "api:demo" 60 0 demoHandler demoReq
          ⟨Store.empty CachedResponse, true⟩).store).nextCalled = false ∧
    (routeCache demoBodyHash "api:demo" 60 10 demoHandler demoReq
        (routeCache demoBodyHash "api:demo" 60 0 demoHandler demoReq
          ⟨Store.empty CachedResponse, true⟩).store).status = 200 ∧
    (routeCache demoBodyHash "api:demo" 60 10 demoHandler demoReq
        (routeCache demoBodyHash "api:demo" 60 0 demoHandler demoReq
          ⟨Store.empty CachedResponse, true⟩).store).body = "demo-body" ∧
    hget (routeCache demoBodyHash "api:demo" 60 10 demoHandler demoReq
        (routeCache demoBodyHash "api:demo" 60 0 demoHandler demoReq
          ⟨Store.empty CachedResponse, true⟩).store).headers "Content-Type" =
      some "application/json" ∧
    hget (routeCache demoBodyHash "api:demo" 60 10 demoHandler demoReq
        (routeCache demoBodyHash "api:demo" 60 0 demoHandler demoReq
          ⟨Store.empty CachedResponse, true⟩).store).headers "X-Cache" =
      some "MISS" := by
  decide

/-- C9: a store-level failure on the read, delete, or scan path is
caught and logged; the operation behaves as a cache miss or no-op (get
returns absent, clears yield an empty result), and the failure never
reaches the end user — the route-cache middleware still runs the
downstream handler and responds with the handler's status and body, and
the decorator's clearCache returns an empty list. -/
theorem store_failure_fail_open {V : Type} (fs : FStore V) (now : Nat)
    (ns ident pat modelName : String) (a : ClearArg)
    (bodyHash : List (String × String) → String) (rns : String) (ttl rnow : Nat)
    (handler : Req → HResp) (req : Req) (fsr : FStore CachedResponse)
    (h : fs.connected = false) (hr : fsr.connected = false) :
    CacheManager.getSafe fs now ns ident = (none, true) ∧
    CacheManager.deleteSafe fs ns ident = (fs, true) ∧
    CacheManager.clearByPatternSafe fs ns pat = (fs, [], true) ∧
    enhancedClearCache fs ns modelName a = (fs, [], true) ∧
    (routeCache bodyHash rns ttl rnow handler req fsr).nextCalled = true ∧
    (routeCache bodyHash rns ttl rnow handler req fsr).status =
      (handler req).status ∧
    (routeCache bodyHash rns ttl rnow handler req fsr).body =
      (handler req).body ∧
    (routeCache bodyHash rns ttl rnow handler req fsr).store = fsr ∧
    (req.method = "GET" →
      0 < (routeCache bodyHash rns ttl rnow handler req fsr).cacheLogs) := by
  have hroute : (routeCache bodyHash rns ttl rnow handler req fsr).nextCalled = true ∧
      (routeCache bodyHash rns ttl rnow handler req fsr).status =
        (handler req).status ∧
      (routeCache bodyHash rns ttl rnow handler req fsr).body =
        (handler req).body ∧
      (routeCache bodyHash rns ttl rnow handler req fsr).store = fsr ∧
      (req.method = "GET" →
        0 < (routeCache bodyHash rns ttl rnow handler req fsr).cacheLogs) := by
    by_cases hm : req.method = "GET"
    · have hg : CacheManager.getSafe fsr rnow rns
          (generateCacheKey bodyHash req rns) = (none, true) := by
        simp [CacheManager.getSafe, hr]
      by_cases hs : (handler req).status < 400
      · simp [routeCache, hm, hg, hs, CacheManager.setSafe, hr]
      · simp [routeCache, hm, hg, hs, CacheManager.setSafe, hr]
    · simp [routeCache, hm]
  exact ⟨by simp [CacheManager.getSafe, h], by simp [CacheManager.deleteSafe, h],
    by simp [CacheManager.clearByPatternSafe, h],
    by cases a <;> simp [enhancedClearCache, CacheManager.clearByPatternSafe, h],
    hroute.1, hroute.2.1, hroute.2.2.1, hroute.2.2.2.1, hroute.2.2.2.2⟩

/-- C9 witness: with the store connection down, a concrete get behaves
as a miss and is logged, the cache-demo request is still answered by the
handler, and a concrete model-wide clearCache yields the empty list. -/
theorem store_failure_fail_open_witness :
    CacheManager.getSafe (⟨demoStore, false⟩ : FStore String) 0 PREFIX_USER
        "User:pk:1" = (none, true) ∧
    enhancedClearCache (⟨demoStore, false⟩ : FStore String) PREFIX_USER "User"
        ClearArg.all = (⟨demoStore, false⟩, [], true) ∧
    (routeCache demoBodyHash "api:demo" 60 0 demoHandler demoReq
        ⟨Store.empty CachedResponse, false⟩).nextCalled = true ∧
    (routeCache demoBodyHash "api:demo" 60 0 demoHandler demoReq
        ⟨Store.empty CachedResponse, false⟩).body = (demoHandler demoReq).body ∧
    0 < (routeCache demoBodyHash "api:demo" 60 0 demoHandler demoReq
        ⟨Store.empty CachedResponse, false⟩).cacheLogs :=
  have hh := store_failure_fail_open (⟨demoStore, false⟩ : FStore String) 0
    PREFIX_USER "User:pk:1" "User" "User" ClearArg.all demoBodyHash "api:demo"
    60 0 demoHandler demoReq ⟨Store.empty CachedResponse, false⟩ rfl rfl
  ⟨hh.1, hh.2.2.2.1, hh.2.2.2.2.1, hh.2.2.2.2.2.2.1, hh.2.2.2.2.2.2.2.2 rfl⟩

/-- `complexOperators.includes(key)` can never hold of an enumerated
key: `Object.keys` yields strings while the array holds Symbols. -/
theorem contains_str_false (s : String) :
    complexOperators.contains (JsKey.str s) = false := by
  by_contra hc
  rw [Bool.not_eq_false] at hc
  have hm := List.mem_of_elem_eq_true hc
  simp [complexOperators] at hm

/-- C4 (code bug): `containsComplexOperators` returns `false` on every
`where` clause — `Object.keys` never enumerates the Symbol-keyed
operator entries and the string keys it does enumerate are never equal
to the Symbols in `complexOperators` — so a `findOne` whose `where` uses
`Op.or` does NOT fall through: it is dispatched to the cache (under a
key hashing `JSON.stringify(where)`, which likewise drops the Symbol
keys), contrary to the claim and to the decorator's own documented
intent. -/
theorem findOne_complex_operator_query_is_cached :
    (∀ w, containsComplexOperators w = false) ∧
    (∀ stringify : WhereVal → String,
      cacheableFindOnePath stringify false "User"
          ⟨false, false, some whereOpOr, false⟩ =
        CallPath.viaCache ("User:one:" ++ hashString (stringify whereOpOr))) := by
  have hall : ∀ w, containsComplexOperators w = false := by
    intro w
    induction w with
    | prim s => rfl
    | objNil => rfl
    | objCons k v rest ihv ihrest =>
      cases k with
      | sym op => simpa [containsComplexOperators] using ihrest
      | str s =>
        simp [containsComplexOperators, ihrest, ihv, complexOperators]
  refine ⟨hall, fun stringify => ?_⟩
  simp [cacheableFindOnePath, hall]

/-- C10: the token cache of `validateUser` is keyed by only the first 10
characters of the bearer token.  For any two distinct tokens agreeing on
those characters, once the first token has been validated, a request
presenting the second token within the entry's TTL is authenticated as
the first token's user without `jwt.verify` ever running on the second
token — even when the second token is invalid. -/
theorem token_cache_first10_shadowing
    (verify : String → Option TokenPayload) (getUser : String → Option UserRec)
    (ts : Store TokenPayload) (us : Store (Option UserRec)) (now fresh : Nat)
    (t1 t2 : String) (p1 : TokenPayload) (u : UserRec)
    (hpre : strTake t1 10 = strTake t2 10)
    (htmiss : CacheManager.get ts now PREFIX_TOKEN
      ("auth:" ++ strTake t1 10) = none)
    (humiss : CacheManager.get us now PREFIX_USER p1.id = none)
    (hv : verify t1 = some p1)
    (hg : getUser p1.id = some u)
    (hact : u.status = "active")
    (hfresh : fresh < now + TTL_SHORT) :
    (validateUser verify getUser ts us now (some t1)).outcome =
      AuthOutcome.success u ∧
    (validateUser verify getUser
        (validateUser verify getUser ts us now (some t1)).tokenStore
        (validateUser verify getUser ts us now (some t1)).userStore
        fresh (some t2)).outcome = AuthOutcome.success u ∧
    (validateUser verify getUser
        (validateUser verify getUser ts us now (some t1)).tokenStore
        (validateUser verify getUser ts us now (some t1)).userStore
        fresh (some t2)).verifyCalls = 0 := by
  have h1 : validateUser verify getUser ts us now (some t1) =
      ⟨AuthOutcome.success u,
       CacheManager.set ts now PREFIX_TOKEN ("auth:" ++ strTake t1 10) p1
         TTL_SHORT,
       CacheManager.set us now PREFIX_USER p1.id (some u) TTL_MEDIUM, 1⟩ := by
    simp [validateUser, htmiss, hv, finishAuth, CacheManager.getOrFetch,
      humiss, hg, hact]
  have htok2 : CacheManager.get
      (CacheManager.set ts now PREFIX_TOKEN ("auth:" ++ strTake t1 10) p1
        TTL_SHORT)
      fresh PREFIX_TOKEN ("auth:" ++ strTake t2 10) = some p1 := by
    rw [← hpre, get_set_same]
    exact if_pos hfresh
  have huser2 : CacheManager.get
      (CacheManager.set us now PREFIX_USER p1.id (some u) TTL_MEDIUM)
      fresh PREFIX_USER p1.id = some (some u) := by
    rw [get_set_same]
    exact if_pos (Nat.lt_of_lt_of_le hfresh
      (Nat.add_le_add_left (by norm_num [TTL_SHORT, TTL_MEDIUM]) now))
  rw [h1]
  refine ⟨rfl, ?_, ?_⟩ <;>
    simp [validateUser, htok2, finishAuth, CacheManager.getOrFetch, huser2,
      hact]

/-- C10 witness: with two concrete JWT-shaped tokens sharing their first
10 characters, where the verifier accepts only the first, presenting the
second token right after the first was validated authenticates as user 7
with zero verify calls. -/
theorem token_cache_first10_shadowing_witness :
    (validateUser demoVerify demoGetUser (Store.empty TokenPayload)
        (Store.empty (Option UserRec)) 0 (some demoToken1)).outcome =
      AuthOutcome.success ⟨"7", "active"⟩ ∧
    (validateUser demoVerify demoGetUser
        (validateUser demoVerify demoGetUser (Store.empty TokenPayload)
          (Store.empty (Option UserRec)) 0 (some demoToken1)).tokenStore
        (validateUser demoVerify demoGetUser (Store.empty TokenPayload)
          (Store.empty (Option UserRec)) 0 (some demoToken1)).userStore
        10 (some demoToken2)).outcome = AuthOutcome.success ⟨"7", "active"⟩ ∧
    (validateUser demoVerify demoGetUser
        (validateUser demoVerify demoGetUser (Store.empty TokenPayload)
          (Store.empty (Option UserRec)) 0 (some demoToken1)).tokenStore
        (validateUser demoVerify demoGetUser (Store.empty TokenPayload)
          (Store.empty (Option UserRec)) 0 (some demoToken1)).userStore
        10 (some demoToken2)).verifyCalls = 0 :=
  token_cache_first10_shadowing demoVerify demoGetUser
    (Store.empty TokenPayload) (Store.empty (Option UserRec)) 0 10
    demoToken1 demoToken2 ⟨"7"⟩ ⟨"7", "active"⟩
    (by decide) rfl rfl (by decide) (by decide) rfl (by decide)

theorem str_ext {s t : String} (h : s.data = t.data) : s = t := by
  cases s
  cases t
  exact congrArg String.mk h

theorem noColon_not_mem {s : String} (h : noColon s = true) : ':' ∉ s.data := by
  intro hm
  have hall := List.all_eq_true.mp h ':' hm
  simp at hall

theorem colonFrame : ∀ (a b x y : List Char), ':' ∉ a → ':' ∉ b →
    a ++ ':' :: x = b ++ ':' :: y → a = b ∧ x = y := by
  intro a
  induction a with
  | nil =>
    intro b x y ha hb h
    cases b with
    | nil => exact ⟨rfl, by simpa using h⟩
    | cons c bs =>
      exfalso
      simp only [List.nil_append, List.cons_append, List.cons.injEq] at h
      obtain ⟨hc, -⟩ := h
      subst hc
      exact hb (List.mem_cons_self _ _)
  | cons c as ih =>
    intro b x y ha hb h
    cases b with
    | nil =>
      exfalso
      simp only [List.cons_append, List.nil_append, List.cons.injEq] at h
      obtain ⟨hc, -⟩ := h
      subst hc
      exact ha (List.mem_cons_self _ _)
    | cons d bs =>
      simp only [List.cons_append, List.cons.injEq] at h
      obtain ⟨hcd, htail⟩ := h
      have hr := ih bs x y (fun hm => ha (List.mem_cons_of_mem _ hm))
        (fun hm => hb (List.mem_cons_of_mem _ hm)) htail
      exact ⟨by rw [hcd, hr.1], hr.2⟩

theorem hashPart_none_data : (hashPart none).data = [] := rfl

theorem hashPart_some_data (h : String) :
    (hashPart (some h)).data = ':' :: h.data := by
  show ((":" : String) ++ h).data = _
  rw [String.data_append]
  rfl

theorem hashFrame {u1 u2 : List Char} {t1 t2 : Option String}
    (hu1 : ':' ∉ u1) (hu2 : ':' ∉ u2)
    (h : u1 ++ (hashPart t1).data = u2 ++ (hashPart t2).data) :
    u1 = u2 ∧ t1 = t2 := by
  cases t1 with
  | none =>
    cases t2 with
    | none =>
      rw [hashPart_none_data, List.append_nil, List.append_nil] at h
      exact ⟨h, rfl⟩
    | some h2 =>
      exfalso
      rw [hashPart_none_data, hashPart_some_data, List.append_nil] at h
      exact hu1 (by rw [h]; exact List.mem_append_right _ (List.mem_cons_self _ _))
  | some h1 =>
    cases t2 with
    | none =>
      exfalso
      rw [hashPart_none_data, hashPart_some_data, List.append_nil] at h
      exact hu2 (by rw [← h]; exact List.mem_append_right _ (List.mem_cons_self _ _))
    | some h2 =>
      rw [hashPart_some_data, hashPart_some_data] at h
      obtain ⟨hu, hh⟩ := colonFrame u1 u2 h1.data h2.data hu1 hu2 h
      exact ⟨hu, by rw [str_ext hh]⟩

theorem fpKey_none_data (M U : String) (t : Option String) :
    (fpKey ⟨M, U, none, t⟩).data =
      M.data ++ ':' :: (U.data ++ (hashPart t).data) := by
  simp [fpKey, principalPart, String.data_append, List.append_assoc]

theorem fpKey_some_data (M U i : String) (t : Option String) :
    (fpKey ⟨M, U, some i, t⟩).data =
      ("user" : String).data ++
        ':' :: (i.data ++ ':' :: (M.data ++ ':' :: (U.data ++ (hashPart t).data))) := by
  simp [fpKey, principalPart, String.data_append, List.append_assoc]

theorem fpKey_inj (f1 f2 : Fingerprint)
    (h1m : ':' ∉ f1.method.data) (h2m : ':' ∉ f2.method.data)
    (h1mu : f1.method ≠ "user") (h2mu : f2.method ≠ "user")
    (h1u : ':' ∉ f1.url.data) (h2u : ':' ∉ f2.url.data)
    (h1p : ∀ i, f1.principal = some i → ':' ∉ i.data)
    (h2p : ∀ i, f2.principal = some i → ':' ∉ i.data)
    (hk : fpKey f1 = fpKey f2) : f1 = f2 := by
  obtain ⟨M1, U1, p1, t1⟩ := f1
  obtain ⟨M2, U2, p2, t2⟩ := f2
  simp only at h1m h2m h1mu h2mu h1u h2u h1p h2p
  have hdata := congrArg String.data hk
  cases p1 with
  | none =>
    cases p2 with
    | none =>
      rw [fpKey_none_data, fpKey_none_data] at hdata
      obtain ⟨hM, htail⟩ := colonFrame _ _ _ _ h1m h2m hdata
      obtain ⟨hU, ht⟩ := hashFrame h1u h2u htail
      simp [str_ext hM, str_ext hU, ht]
    | some i2 =>
      exfalso
      rw [fpKey_none_data, fpKey_some_data] at hdata
      obtain ⟨hM, -⟩ := colonFrame _ _ _ _ h1m (by decide) hdata
      exact h1mu (str_ext hM)
  | some i1 =>
    cases p2 with
    | none =>
      exfalso
      rw [fpKey_some_data, fpKey_none_data] at hdata
      obtain ⟨hM, -⟩ := colonFrame _ _ _ _ (by decide) h2m hdata
      exact h2mu (str_ext hM.symm)
    | some i2 =>
      rw [fpKey_some_data, fpKey_some_data] at hdata
      obtain ⟨-, h1t⟩ := colonFrame _ _ _ _ (by decide) (by decide) hdata
      obtain ⟨hi, h2t⟩ := colonFrame _ _ _ _ (h1p i1 rfl) (h2p i2 rfl) h1t
      obtain ⟨hM, h3t⟩ := colonFrame _ _ _ _ h1m h2m h2t
      obtain ⟨hU, ht⟩ := hashFrame h1u h2u h3t
      simp [str_ext hM, str_ext hU, str_ext hi, ht]

theorem generateCacheKey_data (bodyHash : List (String × String) → String)
    (r : Req) (ns : String) :
    (generateCacheKey bodyHash r ns).data =
      (if ns = "" then ([] : List Char) else ns.data ++ [':']) ++
        (fpKey (canon bodyHash r)).data := by
  rcases hru : r.user with _ | u
  · by_cases hb : r.method ≠ "GET" ∧ r.body ≠ [] <;>
    by_cases hns : ns = "" <;>
      simp [generateCacheKey, canon, fpKey, principalPart, hashPart, hru, hb,
        hns, String.data_append, List.append_assoc]
  · by_cases hid : u.id = "" <;>
    by_cases hb : r.method ≠ "GET" ∧ r.body ≠ [] <;>
    by_cases hns : ns = "" <;>
      simp [generateCacheKey, canon, fpKey, principalPart, hashPart, hru, hid,
        hb, hns, String.data_append, List.append_assoc]

theorem canon_wf (bodyHash : List (String × String) → String) {r : Req}
    (hw : reqWF r) :
    ':' ∉ (canon bodyHash r).method.data ∧ (canon bodyHash r).method ≠ "user" ∧
    ':' ∉ (canon bodyHash r).url.data ∧
    (∀ i, (canon bodyHash r).principal = some i → ':' ∉ i.data) := by
  obtain ⟨hm, hmu, hu, hp⟩ := hw
  refine ⟨noColon_not_mem hm, hmu, noColon_not_mem hu, ?_⟩
  intro i hi
  simp only [canon] at hi
  rcases hru : r.user with _ | u
  · rw [hru] at hi
    simp at hi
  · rw [hru] at hi
    by_cases hid : u.id = ""
    · simp [hid] at hi
    · simp [hid] at hi
      rw [← hi]
      exact noColon_not_mem (hp u hru)

/-- C7 counterexample: two POST requests with the same method and no
principal, differing in BOTH path and body, produce the same fingerprint
without any hash collision (only one of the two bodies is ever hashed):
the URL of the first ends in a colon plus exactly the string the second
one's body hashes to, so the `:<bodyHash>` suffix is absorbed by the
path. -/
theorem generateCacheKey_cross_component_collision :
    reqColA.effectiveUrl ≠ reqColB.effectiveUrl ∧
    reqColA.body ≠ reqColB.body ∧
    reqColA.method = reqColB.method ∧
    reqColA.user = reqColB.user ∧
    generateCacheKey demoBodyHash reqColA "p" =
      generateCacheKey demoBodyHash reqColB "p" := by
  decide

/-- C7 amended: requests with identical fingerprint components (method,
effective URL, principal, and — for non-GET requests with a body — the
body hash) always fingerprint identically (in particular GET requests
ignore the body); and for requests whose method, URL and principal id
are colon-free with method not the literal `user`, the fingerprints are
equal exactly when those components are equal (so any difference in
method, path, principal, or body hash separates them, up to collisions
of the body-hash function).  Without the colon-freeness proviso the
separation direction fails, as the counterexample shows. -/
theorem generateCacheKey_fingerprint_exact
    (bodyHash : List (String × String) → String) (ns : String) (r1 r2 : Req) :
    (canon bodyHash r1 = canon bodyHash r2 →
      generateCacheKey bodyHash r1 ns = generateCacheKey bodyHash r2 ns) ∧
    (reqWF r1 → reqWF r2 →
      generateCacheKey bodyHash r1 ns = generateCacheKey bodyHash r2 ns →
      canon bodyHash r1 = canon bodyHash r2) := by
  constructor
  · intro h
    apply str_ext
    rw [generateCacheKey_data, generateCacheKey_data, h]
  · intro hw1 hw2 hk
    have hd := congrArg String.data hk
    rw [generateCacheKey_data, generateCacheKey_data] at hd
    have hfp : (fpKey (canon bodyHash r1)).data =
        (fpKey (canon bodyHash r2)).data := by
      by_cases hns : ns = ""
      · simpa [hns] using hd
      · rw [if_neg hns] at hd
        exact List.append_cancel_left hd
    obtain ⟨h1m, h1mu, h1u, h1p⟩ := canon_wf bodyHash hw1
    obtain ⟨h2m, h2mu, h2u, h2p⟩ := canon_wf bodyHash hw2
    exact fpKey_inj _ _ h1m h2m h1mu h2mu h1u h2u h1p h2p (str_ext hfp)

/-- C7 amended witness: two GET requests differing only in body
fingerprint identically (forward direction), and the separation
direction applies to the colon-free request `reqColB`. -/
theorem generateCacheKey_fingerprint_exact_witness :
    generateCacheKey demoBodyHash ⟨"GET", "/u", "/u", none, [], false⟩ "p" =
      generateCacheKey demoBodyHash
        ⟨"GET", "/u", "/u", none, [("a", "1")], false⟩ "p" ∧
    canon demoBodyHash reqColB = canon demoBodyHash reqColB :=
  ⟨(generateCacheKey_fingerprint_exact demoBodyHash "p"
      ⟨"GET", "/u", "/u", none, [], false⟩
      ⟨"GET", "/u", "/u", none, [("a", "1")], false⟩).1 (by decide),
   (generateCacheKey_fingerprint_exact demoBodyHash "p" reqColB reqColB).2
      ⟨by decide, by decide, by decide, fun u h => nomatch h⟩
      ⟨by decide, by decide, by decide, fun u h => nomatch h⟩ rfl⟩
